import Mathlib

/-!
Shallow embedding of the extraction pipeline of `Google_Search.py`
(class `GoogleSearchScraper`) and proofs of the spec's claims about it.

Conventions of the embedding:
* Python strings are Lean `String`s; `None` for optional text values is
  either `Option.none` or, where Python code only ever tests truthiness,
  the empty string (falsy exactly like `None` on every path there).
* DOM access is abstracted by oracle functions: a raw search-result node
  carries, per selector string, the list of `text_content()` / attribute
  values of its matches (the code only ever reads `.first`).
* Raised exceptions are `Except.error msg` where `msg` is the message the
  Python code would interpolate via `str(e)`.
* Timestamps (`scraped_at`) and logging are outside the embedding.
-/

/-- Boolean test that `pat` is a prefix of the second list
(character-wise, used to model Python substring search). -/
def prefixCheck : List Char → List Char → Bool
  | [], _ => true
  | _ :: _, [] => false
  | a :: as, b :: bs => a == b && prefixCheck as bs

/-- Boolean test that `pat` occurs as a contiguous substring of the second
list; models the Python expression `pat in s` on strings. -/
def substrCheck (pat : List Char) : List Char → Bool
  | [] => pat.isEmpty
  | c :: rest => prefixCheck pat (c :: rest) || substrCheck pat rest

/-- Characters allowed in a URL scheme, as in `urllib.parse`. -/
def isSchemeChar (c : Char) : Bool := c.isAlphanum || c == '+' || c == '-' || c == '.'

/-- Number of characters taken up by a leading `scheme:` (first char
alphabetic, all chars before the colon scheme characters), colon included;
0 when the string has no such scheme. -/
def schemeSplitIdx (cs : List Char) : Nat :=
  match cs.findIdx? (· == ':') with
  | none => 0
  | some i =>
    if 0 < i ∧ (cs.headD ' ').isAlpha ∧ (cs.take i).all isSchemeChar then i + 1 else 0

/-- Modelled on `urllib.parse.urlsplit`: when the string starts with
`scheme:`, drop the scheme and the colon; otherwise leave it alone. -/
def dropScheme (cs : List Char) : List Char := cs.drop (schemeSplitIdx cs)

/-- A character that stays inside the network-location component. -/
def netlocKeep (c : Char) : Bool := !(c == '/' || c == '?' || c == '#')

/-- Network location of a URL as a character list, modelled on
`urllib.parse.urlparse(url).netloc`: after the scheme, the authority is
present only behind `//` and runs until `/`, `?` or `#`. -/
def netlocChars (cs : List Char) : List Char :=
  let rest := dropScheme cs
  if rest.take 2 = ['/', '/'] then (rest.drop 2).takeWhile netlocKeep else []

/-- Lean model of `urlparse(url).netloc` on strings. -/
def netloc (u : String) : String := ⟨netlocChars u.toList⟩

/-- Counts maximal non-whitespace runs; the flag says whether the previous
character was part of a word. -/
def wordCountAux : List Char → Bool → Nat
  | [], _ => 0
  | c :: rest, inWord =>
    if c.isWhitespace then wordCountAux rest false
    else (if inWord then 0 else 1) + wordCountAux rest true

/-- Python word count `len(s.split())`: whitespace-delimited tokens,
leading/trailing/repeated whitespace ignored. -/
def wordCount (s : String) : Nat := wordCountAux s.toList false

/-- Python `str.strip()` at the character level: drop whitespace from both
ends. -/
def stripChars (cs : List Char) : List Char :=
  ((cs.dropWhile Char.isWhitespace).reverse.dropWhile Char.isWhitespace).reverse

/-- Python `str.strip()`. -/
def pyStrip (s : String) : String := ⟨stripChars s.toList⟩

/-- Python `s.startswith(pre)`. -/
def pyStartsWith (s pre : String) : Bool := prefixCheck pre.toList s.toList

/-- Python slicing `s[:n]`, by code points. -/
def pyTake (s : String) (n : Nat) : String := ⟨s.toList.take n⟩

/-- Truthiness-plus-strip acceptance used for titles and snippets:
`if v and v.strip()`. -/
def textPred (s : String) : Bool := s != "" && pyStrip s != ""

/-- Acceptance used for hrefs: `if v and v.startswith('http')`. -/
def httpPred (s : String) : Bool := s != "" && pyStartsWith s "http"

/-- The selector-cascade loop idiom of `search_google`: starting from an
accumulator (initially `""`), for each selector in order, if the context
has at least one match, assign the first match's value; stop as soon as
the assigned value satisfies the predicate. Note the assignment happens
before the predicate test, so a non-qualifying value of the last matching
selector leaks out of the loop. -/
def cascade (ctx : String → List String) (pred : String → Bool) :
    List String → String → String
  | [], acc => acc
  | sel :: rest, acc =>
    match ctx sel with
    | [] => cascade ctx pred rest acc
    | v :: _ => if pred v then v else cascade ctx pred rest v

/-- Modelled from the spec: resolution that accepts the earliest candidate
having at least one match satisfying the predicate and returns a
distinguished absent otherwise; stated for comparison with `cascade`. -/
def resolveSpec (ctx : String → List String) (pred : String → Bool) :
    List String → Option String
  | [] => none
  | sel :: rest =>
    match (ctx sel).find? pred with
    | some v => some v
    | none => resolveSpec ctx pred rest

/-- A candidate selector whose first match satisfies the predicate is the
one the code's loop breaks on. -/
def headQualifies (ctx : String → List String) (pred : String → Bool) (sel : String) : Bool :=
  match ctx sel with
  | [] => false
  | v :: _ => pred v

/-- Value left in the loop variable after a full pass in which no selector
qualified: the first match of the last selector that had any match, or the
initial accumulator when none matched. -/
def lastAssigned (ctx : String → List String) : List String → String → String
  | [], acc => acc
  | sel :: rest, acc =>
    match ctx sel with
    | [] => lastAssigned ctx rest acc
    | v :: _ => lastAssigned ctx rest v

/-- Title selector cascade of `search_google`. -/
def title_selectors : List String := ["h3", "h2", ".LC20lb", ".DKV0Md"]

/-- Link selector cascade of `search_google`. -/
def link_selectors : List String := ["a[href]", "[href]"]

/-- Snippet selector cascade of `search_google`. -/
def snippet_selectors : List String :=
  [".VwiC3b", ".s3v9rd", ".st", "[data-sncf=\"1\"]", ".IsZvec", ".aCOpRe"]

/-- Excluded-domain patterns of `search_google` (tested by substring
containment against the whole URL, via Python `in`). -/
def excludedDomains : List String := ["google.com", "youtube.com/results", "googleadservices"]

/-- The code's filter `any(domain in url for domain in [...])`. -/
def anyExcluded (url : String) : Bool :=
  excludedDomains.any (fun d => substrCheck d.toList url.toList)

/-- A raw search-result node: per selector, the extracted values
(`text_content()` for title/snippet selectors, `get_attribute('href')` for
link selectors) of its matches in document order; `None` is `""`. -/
structure RawNode where
  titleCtx : String → List String
  linkCtx : String → List String
  snippetCtx : String → List String

/-- Title resolved by the title cascade for one node. -/
def titleVal (n : RawNode) : String := cascade n.titleCtx textPred title_selectors ""

/-- URL resolved by the link cascade for one node. -/
def urlVal (n : RawNode) : String := cascade n.linkCtx httpPred link_selectors ""

/-- Snippet resolved by the snippet cascade for one node. -/
def snippetVal (n : RawNode) : String := cascade n.snippetCtx textPred snippet_selectors ""

/-- Lightweight search-result record built by `search_google`. -/
structure SearchResultRecord where
  position : Nat
  title : String
  url : String
  snippet : String
  domain : String
  search_query : String
deriving DecidableEq

/-- The code's per-node acceptance: title truthy, url truthy and
`startswith('http')`, and no excluded pattern occurs in the url. -/
def accepts (n : RawNode) : Bool :=
  titleVal n != "" && urlVal n != "" && pyStartsWith (urlVal n) "http" &&
    !(anyExcluded (urlVal n))

/-- Record appended for an accepted node (`results.append({...})`). -/
def mkRecord (query : String) (pos : Nat) (n : RawNode) : SearchResultRecord :=
  { position := pos
    title := pyStrip (titleVal n)
    url := urlVal n
    snippet := if snippetVal n != "" then pyStrip (snippetVal n) else "No description available"
    domain := netloc (urlVal n)
    search_query := query }

/-- One iteration of the result loop of `search_google`: skip the node on
failed validation or domain exclusion, otherwise append with
`position = len(results) + 1`. -/
def processNode (query : String) (acc : List SearchResultRecord) (n : RawNode) :
    List SearchResultRecord :=
  if accepts n then acc ++ [mkRecord query (acc.length + 1) n] else acc

/-- The extraction loop of `search_google`:
`for i, result in enumerate(search_results[:max_results])`. -/
def extractResults (query : String) (nodes : List RawNode) (max_results : Nat) :
    List SearchResultRecord :=
  (nodes.take max_results).foldl (processNode query) []

/-- Records produced from a node list when `k` results are already
accepted; recursion form of the fold for proofs. -/
def buildRecords (query : String) (k : Nat) : List RawNode → List SearchResultRecord
  | [] => []
  | n :: ns =>
    if accepts n then mkRecord query (k + 1) n :: buildRecords query (k + 1) ns
    else buildRecords query k ns

/-- One heading entry of a content record (`{'level': ..., 'text': ...}`). -/
structure Heading where
  level : String
  text : String
deriving DecidableEq

/-- Content record built by `extract_page_content` (`content_data`);
`scraped_at` is a wall-clock timestamp and stays outside the embedding. -/
structure ContentRecord where
  url : String
  title : String
  content : String
  text_content : String
  meta_description : String
  headings : List Heading
  links : List String
  images : List String
  status_code : Option Nat
  error : Option String
  word_count : Nat
  reading_time : Nat
deriving DecidableEq

/-- The dictionary `extract_page_content` initialises before doing any
network work (lines 298-312 of the source). -/
def initRecord (url title : String) : ContentRecord :=
  { url := url, title := title, content := "", text_content := "",
    meta_description := "", headings := [], links := [], images := [],
    status_code := none, error := none, word_count := 0, reading_time := 0 }

deriving instance DecidableEq for Except

/-- One raw heading node: the outcome of evaluating `el.tagName` and of
`text_content()` on it; either may raise. -/
structure HeadingNode where
  tagName : Except String String
  text : Except String (Option String)
deriving DecidableEq

/-- Oracle for everything one `extract_page_content` call observes from
the browser. Each field is the outcome of the corresponding awaited step:
`Except.error` is a raised exception carrying `str(e)`. -/
structure PageBehavior where
  newPage : Except String Unit
  navigate : Except String (Option Nat)
  settleOk : Bool
  evalText : Except String (Option String)
  metaDesc : Except String (Option String)
  headingNodes : Except String (List HeadingNode)

/-- Per-heading extraction (lines 378-387): a raised exception at either
step skips the heading; empty or whitespace-only text skips it; otherwise
the tag level and the trimmed text truncated to 200 characters are kept. -/
def extractHeading (h : HeadingNode) : Option Heading :=
  match h.tagName with
  | .error _ => none
  | .ok tag =>
    match h.text with
    | .error _ => none
    | .ok none => none
    | .ok (some t) =>
      if t != "" && pyStrip t != "" then
        some { level := tag, text := pyTake (pyStrip t) 200 }
      else none

/-- Steps of `extract_page_content` after a successful navigation that did
not return an error status: settle wait (its timeout is swallowed by a
bare `except: pass`, so `settleOk` never influences the record), text
extraction (unprotected, so a raised error lands in the outer handler),
metrics, meta description (bare `except: pass`), headings
(bare `except: pass`, 20-entry cap). -/
def afterNavigation (b : PageBehavior) (d : ContentRecord) : ContentRecord :=
  match b.evalText with
  | .error e => { d with error := some ("Error extracting content from " ++ d.url ++ ": " ++ e) }
  | .ok t =>
    let tc := pyStrip (t.getD "")
    let d1 := { d with text_content := tc }
    let d2 :=
      if tc != "" then
        { d1 with word_count := wordCount tc, reading_time := max 1 (wordCount tc / 200) }
      else d1
    let d3 :=
      match b.metaDesc with
      | .error _ => d2
      | .ok m => { d2 with meta_description := m.getD "" }
    match b.headingNodes with
    | .error _ => d3
    | .ok hs => { d3 with headings := (hs.take 20).filterMap extractHeading }

/-- Shallow embedding of `extract_page_content(url, title)`: the result is
`Except.error` exactly when the call raises past its own boundary. The
`new_page` acquisition happens before the `try` block, so its failure
propagates; everything from navigation on is protected. -/
def extract_page_content (b : PageBehavior) (url title : String) :
    Except String ContentRecord :=
  match b.newPage with
  | .error e => .error e
  | .ok _ =>
    let d := initRecord url title
    match b.navigate with
    | .error e => .ok { d with error := some ("Navigation failed: " ++ e) }
    | .ok resp =>
      let d1 := { d with status_code := resp }
      match resp with
      | some s =>
        if 400 ≤ s then .ok { d1 with error := some ("HTTP " ++ toString s) }
        else .ok (afterNavigation b d1)
      | none => .ok (afterNavigation b d1)

/-- Outcome of one content-extraction task as captured by
`asyncio.gather(..., return_exceptions=True)`: either the returned record
or the raised exception's message. -/
inductive Outcome where
  | ok : ContentRecord → Outcome
  | exn : String → Outcome
deriving DecidableEq

/-- The dictionary union `{**search_result, **content_result}`. Search
fields keep their values unless the content dictionary carries the same
key; for a captured failure the content dictionary is the minimal
placeholder `{url, title, error, scraped_at}` built from the search
record, so the full content payload keys are absent (`contentPayload`
is `none`). -/
structure CombinedRecord where
  position : Nat
  snippet : String
  domain : String
  search_query : String
  url : String
  title : String
  error : Option String
  contentPayload : Option ContentRecord
deriving DecidableEq

/-- Merge of one search record with its content outcome (lines 421-433). -/
def mergeOne (s : SearchResultRecord) (o : Outcome) : CombinedRecord :=
  match o with
  | .exn msg =>
    { position := s.position, snippet := s.snippet, domain := s.domain,
      search_query := s.search_query, url := s.url, title := s.title,
      error := some msg, contentPayload := none }
  | .ok c =>
    { position := s.position, snippet := s.snippet, domain := s.domain,
      search_query := s.search_query, url := c.url, title := c.title,
      error := c.error, contentPayload := some c }

/-- Shallow embedding of `scrape_search_results`: `fetch url title` is the
captured outcome of the task `extract_page_content(url, title)`; `gather`
returns the outcomes in task order, so the content list is the image of
the input list, then the two are zipped and merged pairwise. -/
def scrape_search_results (fetch : String → String → Outcome)
    (search_results : List SearchResultRecord) : List CombinedRecord :=
  if search_results.isEmpty then []
  else
    let content_results := search_results.map (fun r => fetch r.url r.title)
    (search_results.zip content_results).map (fun p => mergeOne p.1 p.2)

/-- Phase of one content-extraction task with respect to the admission
gate `asyncio.Semaphore(max_concurrent_pages)`: queued before `async with
self.semaphore`, holding the gate, or finished (successfully or not). -/
inductive TaskPhase where
  | waiting : TaskPhase
  | running : TaskPhase
  | finished : Bool → TaskPhase
deriving DecidableEq

/-- Scheduler state: free slots of the semaphore plus the phase of every
task launched by `scrape_search_results`. -/
structure SchedState where
  avail : Nat
  tasks : List TaskPhase
deriving DecidableEq

/-- Interleaving semantics of the admission gate: a queued task may enter
only when a slot is free; a holding task may finish (with or without a
raised failure) and always releases its slot — `async with` releases on
both paths, and a failure is captured by `gather` without touching any
sibling. -/
inductive SchedStep : SchedState → SchedState → Prop where
  | acquire (s : SchedState) (i : Nat) (h : s.tasks[i]? = some .waiting)
      (ha : 0 < s.avail) :
      SchedStep s ⟨s.avail - 1, s.tasks.set i .running⟩
  | finish (s : SchedState) (i : Nat) (failed : Bool)
      (h : s.tasks[i]? = some .running) :
      SchedStep s ⟨s.avail + 1, s.tasks.set i (.finished failed)⟩

/-- Initial scheduler state: a fresh semaphore with `n` slots and `k`
queued tasks. -/
def initState (n k : Nat) : SchedState := ⟨n, List.replicate k .waiting⟩

/-- Number of tasks currently holding the admission gate. -/
def runningCount (s : SchedState) : Nat := s.tasks.countP (fun t => t == .running)

/-- A raw node whose first title selector yields a proper title and whose
first link selector yields the given href; used as a concrete input. -/
def goodNode (u : String) : RawNode :=
  { titleCtx := fun sel => if sel = "h3" then ["Example Title"] else []
    linkCtx := fun sel => if sel = "a[href]" then [u] else []
    snippetCtx := fun _ => [] }

/-- A concrete raw node pointing at an excluded domain. -/
def excludedNode : RawNode := goodNode "https://www.google.com/search?q=x"

/-- A concrete raw node whose only title match is whitespace. -/
def blankTitleNode : RawNode :=
  { titleCtx := fun sel => if sel = "h3" then ["   "] else []
    linkCtx := fun sel => if sel = "a[href]" then ["https://example.com/w"] else []
    snippetCtx := fun _ => [] }

/-- A concrete raw node whose url has a clean authority but carries an
excluded pattern in its path. -/
def pathTrapNode : RawNode := goodNode "https://example.com/google.com/page"

/-- A concrete raw node none of whose title selectors matches anything. -/
def noTitleNode : RawNode :=
  { titleCtx := fun _ => []
    linkCtx := fun sel => if sel = "a[href]" then ["https://example.com/x"] else []
    snippetCtx := fun _ => [] }

/-- A concrete search page with 15 raw nodes of which 2 (at raw indices 2
and 5, hence among the first 10 scanned) point to excluded domains and
the other 13 qualify. -/
def nodes15 : List RawNode :=
  [goodNode "https://a.example/1", goodNode "https://a.example/2", excludedNode,
   goodNode "https://a.example/3", goodNode "https://a.example/4", excludedNode,
   goodNode "https://a.example/5", goodNode "https://a.example/6",
   goodNode "https://a.example/7", goodNode "https://a.example/8",
   goodNode "https://a.example/9", goodNode "https://a.example/10",
   goodNode "https://a.example/11", goodNode "https://a.example/12",
   goodNode "https://a.example/13"]

/-- Concrete cascade context in which the first candidate's first match
fails the predicate while its second match would satisfy it. -/
def ctxSecondMatch : String → List String :=
  fun sel => if sel = "a" then ["", "ok"] else if sel = "b" then ["good"] else []

/-- Concrete cascade context whose only match anywhere is whitespace. -/
def ctxBlankOnly : String → List String :=
  fun sel => if sel = "a" then ["   "] else []

/-- Concrete page behavior: page acquired, navigation gives HTTP 404. -/
def behavior404 : PageBehavior :=
  { newPage := .ok (), navigate := .ok (some 404), settleOk := true,
    evalText := .ok (some "body text"), metaDesc := .ok none, headingNodes := .ok [] }

/-- Concrete page behavior in which acquiring the new page itself raises. -/
def behaviorNewPageFails : PageBehavior :=
  { newPage := .error "Target page, context or browser has been closed",
    navigate := .ok (some 200), settleOk := true, evalText := .ok none,
    metaDesc := .ok none, headingNodes := .ok [] }

/-- Concrete page behavior: navigation succeeds without a response object
and the text-extraction evaluation raises. -/
def behaviorEvalFails : PageBehavior :=
  { newPage := .ok (), navigate := .ok none, settleOk := false,
    evalText := .error "Execution context was destroyed",
    metaDesc := .ok none, headingNodes := .ok [] }

/-- Two concrete search records for exercising the merger. -/
def searchRecA : SearchResultRecord :=
  { position := 1, title := "A", url := "https://a.example/1",
    snippet := "sa", domain := "a.example", search_query := "q" }

/-- Second concrete search record; its fetch is made to fail. -/
def searchRecB : SearchResultRecord :=
  { position := 2, title := "B", url := "https://b.example/2",
    snippet := "sb", domain := "b.example", search_query := "q" }

/-- Concrete fetch oracle: the task for `searchRecB` raises, every other
task returns its default record. -/
def fetchBoom : String → String → Outcome :=
  fun u t => if u = "https://b.example/2" then .exn "boom" else .ok (initRecord u t)

theorem foldl_processNode_eq_build (query : String) :
    ∀ (ns : List RawNode) (acc : List SearchResultRecord),
      ns.foldl (processNode query) acc = acc ++ buildRecords query acc.length ns := by
  intro ns
  induction ns with
  | nil => intro acc; simp [buildRecords]
  | cons n ns ih =>
    intro acc
    by_cases h : accepts n
    · have hp : processNode query acc n = acc ++ [mkRecord query (acc.length + 1) n] := by
        simp [processNode, h]
      calc (n :: ns).foldl (processNode query) acc
          = ns.foldl (processNode query) (acc ++ [mkRecord query (acc.length + 1) n]) := by
            rw [List.foldl_cons, hp]
        _ = (acc ++ [mkRecord query (acc.length + 1) n]) ++
              buildRecords query (acc ++ [mkRecord query (acc.length + 1) n]).length ns := ih _
        _ = acc ++ buildRecords query acc.length (n :: ns) := by
            simp [buildRecords, h, List.append_assoc]
    · have hp : processNode query acc n = acc := by simp [processNode, h]
      calc (n :: ns).foldl (processNode query) acc
          = ns.foldl (processNode query) acc := by rw [List.foldl_cons, hp]
        _ = acc ++ buildRecords query acc.length ns := ih _
        _ = acc ++ buildRecords query acc.length (n :: ns) := by simp [buildRecords, h]

theorem buildRecords_length (query : String) :
    ∀ (ns : List RawNode) (k : Nat),
      (buildRecords query k ns).length = ns.countP accepts := by
  intro ns
  induction ns with
  | nil => intro k; simp [buildRecords]
  | cons n ns ih =>
    intro k
    by_cases h : accepts n
    · simp [buildRecords, h, ih, List.countP_cons]
    · simp [buildRecords, h, ih, List.countP_cons]

theorem buildRecords_positions (query : String) :
    ∀ (ns : List RawNode) (k : Nat),
      (buildRecords query k ns).map SearchResultRecord.position =
        List.range' (k + 1) (buildRecords query k ns).length := by
  intro ns
  induction ns with
  | nil => intro k; simp [buildRecords]
  | cons n ns ih =>
    intro k
    by_cases h : accepts n
    · simp only [buildRecords, h, if_pos, List.map_cons, List.length_cons, mkRecord]
      rw [ih]
      rfl
    · simp only [buildRecords, h, Bool.false_eq_true, not_false_iff, if_neg]
      exact ih k

theorem buildRecords_mem (query : String) :
    ∀ (ns : List RawNode) (k : Nat) (r : SearchResultRecord),
      r ∈ buildRecords query k ns →
        ∃ p n, n ∈ ns ∧ accepts n = true ∧ r = mkRecord query p n := by
  intro ns
  induction ns with
  | nil => intro k r h; simp [buildRecords] at h
  | cons n ns ih =>
    intro k r h
    by_cases ha : accepts n
    · simp only [buildRecords, ha, if_pos, List.mem_cons] at h
      rcases h with h | h
      · exact ⟨k + 1, n, List.mem_cons_self n ns, ha, h⟩
      · rcases ih (k + 1) r h with ⟨p, m, hm, hacc, hr⟩
        exact ⟨p, m, List.mem_cons_of_mem n hm, hacc, hr⟩
    · simp only [buildRecords, ha, Bool.false_eq_true, not_false_iff, if_neg] at h
      rcases ih k r h with ⟨p, m, hm, hacc, hr⟩
      exact ⟨p, m, List.mem_cons_of_mem n hm, hacc, hr⟩

theorem prefixCheck_takeWhile (p : Char → Bool) :
    ∀ l : List Char, prefixCheck (l.takeWhile p) l = true := by
  intro l
  induction l with
  | nil => rfl
  | cons c cs ih =>
    by_cases h : p c
    · simp only [List.takeWhile_cons, h, if_pos, prefixCheck]
      simp [ih]
    · simp [List.takeWhile_cons, h, prefixCheck]

theorem substrCheck_of_prefixCheck {pat l : List Char} (h : prefixCheck pat l = true) :
    substrCheck pat l = true := by
  cases l with
  | nil =>
    cases pat with
    | nil => rfl
    | cons a as => simp [prefixCheck] at h
  | cons c cs => simp [substrCheck, h]

theorem substrCheck_cons {pat rest : List Char} (c : Char)
    (h : substrCheck pat rest = true) : substrCheck pat (c :: rest) = true := by
  simp [substrCheck, h]

theorem substrCheck_of_drop {pat : List Char} :
    ∀ (n : Nat) (l : List Char), substrCheck pat (l.drop n) = true →
      substrCheck pat l = true := by
  intro n
  induction n with
  | zero => intro l h; simpa using h
  | succ m ih =>
    intro l h
    cases l with
    | nil => simpa using h
    | cons c cs => exact substrCheck_cons c (ih cs h)

theorem substrCheck_nil (l : List Char) : substrCheck [] l = true := by
  cases l with
  | nil => rfl
  | cons c t => simp [substrCheck, prefixCheck]

theorem dropScheme_eq_drop (cs : List Char) : ∃ n, dropScheme cs = cs.drop n :=
  ⟨schemeSplitIdx cs, rfl⟩

theorem netlocChars_substr (cs : List Char) : substrCheck (netlocChars cs) cs = true := by
  rcases dropScheme_eq_drop cs with ⟨n, hn⟩
  unfold netlocChars
  by_cases h : (dropScheme cs).take 2 = ['/', '/']
  · simp only [h, if_pos]
    have hrest : (dropScheme cs).drop 2 = cs.drop (n + 2) := by
      rw [hn]; exact List.drop_drop 2 n cs
    apply substrCheck_of_drop (n + 2)
    rw [← hrest]
    exact substrCheck_of_prefixCheck (prefixCheck_takeWhile netlocKeep _)
  · simp only [h, if_neg, Bool.false_eq_true, not_false_iff]
    exact substrCheck_nil cs

theorem netlocChars_keep (cs : List Char) :
    ∀ c ∈ netlocChars cs, netlocKeep c = true := by
  intro c hc
  unfold netlocChars at hc
  by_cases h : (dropScheme cs).take 2 = ['/', '/']
  · simp only [h, if_pos] at hc
    exact List.mem_takeWhile_imp hc
  · simp [h] at hc

theorem netloc_not_excluded {u : String} (h : anyExcluded u = false) :
    netloc u ∉ excludedDomains := by
  intro hmem
  have hfalse : ∀ d, d ∈ excludedDomains → substrCheck d.toList u.toList = false := by
    intro d hd
    by_contra hne
    have ht : substrCheck d.toList u.toList = true := by
      cases hb : substrCheck d.toList u.toList
      · exact absurd hb hne
      · rfl
    have hany : anyExcluded u = true := by
      unfold anyExcluded
      exact List.any_eq_true.mpr ⟨d, hd, ht⟩
    rw [h] at hany
    exact Bool.false_ne_true hany
  have hmem' : netloc u = "google.com" ∨ netloc u = "youtube.com/results" ∨
      netloc u = "googleadservices" := by
    simpa [excludedDomains] using hmem
  have hchars : ∀ s : String, netloc u = s → netlocChars u.toList = s.toList := by
    intro s hs
    have := congrArg String.toList hs
    simpa [netloc] using this
  rcases hmem' with hg | hy | ha
  · have hc := hchars _ hg
    have hs := netlocChars_substr u.toList
    rw [hc] at hs
    have hf := hfalse "google.com" (by simp [excludedDomains])
    rw [hf] at hs
    exact Bool.false_ne_true hs
  · have hc := hchars _ hy
    have hk := netlocChars_keep u.toList '/'
    rw [hc] at hk
    have hmem2 : '/' ∈ "youtube.com/results".toList := by decide
    have := hk hmem2
    simp [netlocKeep] at this
  · have hc := hchars _ ha
    have hs := netlocChars_substr u.toList
    rw [hc] at hs
    have hf := hfalse "googleadservices" (by simp [excludedDomains])
    rw [hf] at hs
    exact Bool.false_ne_true hs

theorem countP_set_succ {α : Type} (p : α → Bool) :
    ∀ (l : List α) (i : Nat) (a b : α), l[i]? = some a → p a = false → p b = true →
      (l.set i b).countP p = l.countP p + 1 := by
  intro l
  induction l with
  | nil => intro i a b h; simp at h
  | cons x xs ih =>
    intro i a b h hpa hpb
    cases i with
    | zero =>
      simp only [List.getElem?_cons_zero, Option.some_inj] at h
      subst h
      simp [List.countP_cons, hpa, hpb]
    | succ m =>
      simp only [List.getElem?_cons_succ] at h
      have hih := ih m a b h hpa hpb
      cases hpx : p x <;> simp [List.set_cons_succ, List.countP_cons, hpx, hih]

theorem countP_set_pred {α : Type} (p : α → Bool) :
    ∀ (l : List α) (i : Nat) (a b : α), l[i]? = some a → p a = true → p b = false →
      (l.set i b).countP p + 1 = l.countP p := by
  intro l
  induction l with
  | nil => intro i a b h; simp at h
  | cons x xs ih =>
    intro i a b h hpa hpb
    cases i with
    | zero =>
      simp only [List.getElem?_cons_zero, Option.some_inj] at h
      subst h
      simp [List.countP_cons, hpa, hpb]
    | succ m =>
      simp only [List.getElem?_cons_succ] at h
      have hih := ih m a b h hpa hpb
      cases hpx : p x <;> simp [List.set_cons_succ, List.countP_cons, hpx, hih]

theorem schedStep_invariant {s s' : SchedState} (h : SchedStep s s') :
    s'.avail + runningCount s' = s.avail + runningCount s := by
  cases h with
  | acquire i hw ha =>
    have hc : (s.tasks.set i TaskPhase.running).countP (fun t => t == TaskPhase.running) =
        s.tasks.countP (fun t => t == TaskPhase.running) + 1 :=
      countP_set_succ _ s.tasks i _ _ hw (by decide) (by decide)
    simp only [runningCount, hc]
    omega
  | finish i failed hr =>
    have hc : (s.tasks.set i (TaskPhase.finished failed)).countP
          (fun t => t == TaskPhase.running) + 1 =
        s.tasks.countP (fun t => t == TaskPhase.running) :=
      countP_set_pred _ s.tasks i _ _ hr (by decide) (by cases failed <;> decide)
    simp only [runningCount]
    omega

theorem countP_running_replicate_waiting (k : Nat) :
    (List.replicate k TaskPhase.waiting).countP (fun t => t == .running) = 0 := by
  induction k with
  | zero => rfl
  | succ m ih => simp [List.replicate_succ, List.countP_cons, ih]

theorem reach_invariant {n k : Nat} {s : SchedState}
    (h : Relation.ReflTransGen SchedStep (initState n k) s) :
    s.avail + runningCount s = n := by
  induction h with
  | refl => simp [initState, runningCount, countP_running_replicate_waiting]
  | tail hab hbc ih => rw [schedStep_invariant hbc]; exact ih

theorem zip_map_self {α β γ : Type} (g : α → β) (f : α → β → γ) :
    ∀ rs : List α,
      ((rs.zip (rs.map g)).map fun p => f p.1 p.2) = rs.map fun r => f r (g r) := by
  intro rs
  induction rs with
  | nil => rfl
  | cons a l ih => simp only [List.map_cons, List.zip_cons_cons, ih]

theorem scrape_search_results_eq_map (fetch : String → String → Outcome)
    (rs : List SearchResultRecord) :
    scrape_search_results fetch rs =
      rs.map (fun r => mergeOne r (fetch r.url r.title)) := by
  cases rs with
  | nil => rfl
  | cons a l =>
    unfold scrape_search_results
    simp only [List.isEmpty_cons, Bool.false_eq_true, if_neg, not_false_iff]
    exact zip_map_self _ _ (a :: l)

example : netloc "https://example.com/a?b=1" = "example.com" := by decide
example : netloc "httpfoo" = "" := by decide
example : substrCheck "google.com".toList "https://example.com/google.com/x".toList = true := by
  decide
example : wordCount "  two  words " = 2 := by decide

theorem cascade_of_headQualifies (ctx : String → List String) (pred : String → Bool)
    (sel : String) (hq : headQualifies ctx pred sel = true) :
    ∀ pre : List String, (∀ s ∈ pre, headQualifies ctx pred s = false) →
      ∀ (post : List String) (acc : String),
        cascade ctx pred (pre ++ sel :: post) acc = (ctx sel).headD "" := by
  intro pre
  induction pre with
  | nil =>
    intro _ post acc
    cases hc : ctx sel with
    | nil => exfalso; simp [headQualifies, hc] at hq
    | cons v vs =>
      have hq' : pred v = true := by simpa [headQualifies, hc] using hq
      simp [cascade, hc, hq']
  | cons a pre ih =>
    intro hpre post acc
    have hrest : ∀ s ∈ pre, headQualifies ctx pred s = false := fun s hs =>
      hpre s (List.mem_cons_of_mem a hs)
    cases hc : ctx a with
    | nil =>
      simp only [List.cons_append, cascade, hc]
      exact ih hrest post acc
    | cons v vs =>
      have ha' : pred v = false := by
        simpa [headQualifies, hc] using hpre a (List.mem_cons_self a pre)
      simp only [List.cons_append, cascade, hc, ha', Bool.false_eq_true, if_neg,
        not_false_iff]
      exact ih hrest post v

theorem cascade_lastAssigned (ctx : String → List String) (pred : String → Bool) :
    ∀ (cands : List String) (acc : String),
      (∀ s ∈ cands, headQualifies ctx pred s = false) →
      cascade ctx pred cands acc = lastAssigned ctx cands acc := by
  intro cands
  induction cands with
  | nil => intro acc _; rfl
  | cons a rest ih =>
    intro acc h
    have hrest : ∀ s ∈ rest, headQualifies ctx pred s = false := fun s hs =>
      h s (List.mem_cons_of_mem a hs)
    cases hc : ctx a with
    | nil =>
      simp only [cascade, lastAssigned, hc]
      exact ih acc hrest
    | cons v vs =>
      have ha' : pred v = false := by
        simpa [headQualifies, hc] using h a (List.mem_cons_self a rest)
      simp only [cascade, lastAssigned, hc, ha', Bool.false_eq_true, if_neg,
        not_false_iff]
      exact ih v hrest

/-- C1: for every input sequence of K SearchResultRecords,
`scrape_search_results` returns exactly K combined records in input
order: the record at index i is the merge of input i with the outcome of
its own fetch (so every index is determined by its own input alone and
the other indices are unaffected by a failure); when the outcome at
index i is a raised failure with message msg, the combined record at i
carries `error = msg` with url and title taken from the i-th input. -/
theorem scrape_search_results_order_and_failures
    (fetch : String → String → Outcome) (rs : List SearchResultRecord) :
    (scrape_search_results fetch rs).length = rs.length ∧
    ∀ (i : Nat) (r : SearchResultRecord), rs[i]? = some r →
      (scrape_search_results fetch rs)[i]? = some (mergeOne r (fetch r.url r.title)) ∧
      ∀ msg, fetch r.url r.title = Outcome.exn msg →
        (scrape_search_results fetch rs)[i]? = some
          ({ position := r.position, snippet := r.snippet, domain := r.domain,
             search_query := r.search_query, url := r.url, title := r.title,
             error := some msg, contentPayload := none } : CombinedRecord) := by
  rw [scrape_search_results_eq_map]
  constructor
  · simp
  · intro i r hr
    constructor
    · rw [List.getElem?_map, hr]; rfl
    · intro msg hmsg
      rw [List.getElem?_map, hr]
      simp [mergeOne, hmsg]

/-- Witness for C1: at a concrete two-element input whose second fetch
raises, the second combined record carries the failure message and the
second input's url and title. -/
theorem scrape_search_results_order_and_failures_witness :
    (scrape_search_results fetchBoom [searchRecA, searchRecB])[1]? = some
      ({ position := searchRecB.position, snippet := searchRecB.snippet,
         domain := searchRecB.domain, search_query := searchRecB.search_query,
         url := searchRecB.url, title := searchRecB.title,
         error := some "boom", contentPayload := none } : CombinedRecord) :=
  ((scrape_search_results_order_and_failures fetchBoom [searchRecA, searchRecB]).2 1
    searchRecB (by decide)).2 "boom" (by decide)

/-- C2 (amended): the cap of `search_google` bounds raw candidates
examined, not accepted results: for every query, node list and cap, the
output length equals the number of qualifying nodes among the first
`max_results` raw nodes scanned. -/
theorem extractResults_length_counts_qualifying_of_scanned
    (query : String) (nodes : List RawNode) (max_results : Nat) :
    (extractResults query nodes max_results).length =
      (nodes.take max_results).countP accepts := by
  unfold extractResults
  rw [foldl_processNode_eq_build]
  simp [buildRecords_length]

/-- Counterexample to C2 as stated: a search page with 15 raw nodes, 2 of
which (sitting among the first 10 raw nodes) point to excluded domains
while the other 13 qualify, yet `max_results = 10` yields 8 accepted
results, not 10. -/
theorem scenarioB_yields_eight_not_ten :
    nodes15.length = 15 ∧ nodes15.countP accepts = 13 ∧
      (extractResults "q" nodes15 10).length = 8 := by decide

/-- Counterexample to C3 as stated: when acquiring the new page raises —
that acquisition happens before the protected `try` block — the call
raises past the boundary instead of returning a record. -/
theorem extract_page_content_raises_on_new_page_failure :
    extract_page_content behaviorNewPageFails "https://x.example/" "T" =
      .error "Target page, context or browser has been closed" := by decide

/-- C3 (amended): once the page is acquired, `extract_page_content` is
total at its boundary: it always returns a ContentRecord and never
raises; an error raised during text extraction after a successful
navigation is caught, recorded as a descriptive message in `error`, and
the record with the fields populated before the failure (url, title,
status_code) is returned rather than discarded; errors during the settle
wait, meta-description extraction or headings extraction are swallowed
where they occur — extraction proceeds and no error is recorded. -/
theorem extract_page_content_total_after_acquisition
    (b : PageBehavior) (url title : String) (h : b.newPage = .ok ()) :
    (∃ r, extract_page_content b url title = .ok r) ∧
    (∀ e, b.navigate = .ok none → b.evalText = .error e →
      extract_page_content b url title = .ok
        { initRecord url title with
            error := some ("Error extracting content from " ++ url ++ ": " ++ e) }) ∧
    (∀ e s, b.navigate = .ok (some s) → s < 400 → b.evalText = .error e →
      extract_page_content b url title = .ok
        { initRecord url title with
            status_code := some s
            error := some ("Error extracting content from " ++ url ++ ": " ++ e) }) ∧
    (∀ (d : ContentRecord) (t : Option String), b.evalText = .ok t →
      (afterNavigation b d).error = d.error) := by
  refine ⟨?_, ?_, ?_, ?_⟩
  · cases hn : b.navigate with
    | error e =>
      exact ⟨{ initRecord url title with error := some ("Navigation failed: " ++ e) },
        by simp only [extract_page_content, initRecord, h, hn]⟩
    | ok resp =>
      cases resp with
      | none =>
        exact ⟨afterNavigation b { initRecord url title with status_code := none },
          by simp only [extract_page_content, h, hn]⟩
      | some s =>
        by_cases hs : 400 ≤ s
        · exact ⟨{ initRecord url title with
              status_code := some s
              error := some ("HTTP " ++ toString s) },
            by simp only [extract_page_content, initRecord, h, hn, if_pos hs]⟩
        · exact ⟨afterNavigation b { initRecord url title with status_code := some s },
            by simp only [extract_page_content, h, hn, if_neg hs]⟩
  · intro e hn he
    simp only [extract_page_content, afterNavigation, initRecord, h, hn, he]
  · intro e s hn hs he
    simp only [extract_page_content, afterNavigation, initRecord, h, hn, he,
      if_neg (show ¬ 400 ≤ s by omega)]
  · intro d t he
    simp only [afterNavigation, he]
    cases hm : b.metaDesc with
    | error em =>
      cases hh : b.headingNodes with
      | error eh => by_cases htc : pyStrip (t.getD "") != "" <;> simp [htc]
      | ok hs => by_cases htc : pyStrip (t.getD "") != "" <;> simp [htc]
    | ok m =>
      cases hh : b.headingNodes with
      | error eh => by_cases htc : pyStrip (t.getD "") != "" <;> simp [htc]
      | ok hs => by_cases htc : pyStrip (t.getD "") != "" <;> simp [htc]

/-- Witness for C3 (amended) at a concrete behavior whose text-extraction
evaluation raises after a navigation that returned no response object. -/
theorem extract_page_content_total_after_acquisition_witness :
    extract_page_content behaviorEvalFails "https://x.example/" "T" = .ok
      { initRecord "https://x.example/" "T" with
          error := some ("Error extracting content from " ++ "https://x.example/" ++
            ": " ++ "Execution context was destroyed") } :=
  ((extract_page_content_total_after_acquisition behaviorEvalFails
    "https://x.example/" "T" rfl).2.1 "Execution context was destroyed" rfl rfl)

/-- C4: for every search page and every cap, the extractor's output has
length at most `max_results`, and the position fields are exactly
1, 2, ..., len(output) in order with no gaps, however many raw candidates
were skipped by validation or domain exclusion. -/
theorem extractResults_capped_and_positions_dense
    (query : String) (nodes : List RawNode) (max_results : Nat) :
    (extractResults query nodes max_results).length ≤ max_results ∧
    (extractResults query nodes max_results).map SearchResultRecord.position =
      List.range' 1 (extractResults query nodes max_results).length := by
  constructor
  · unfold extractResults
    rw [foldl_processNode_eq_build]
    simp only [List.nil_append, List.length_nil, buildRecords_length]
    calc (nodes.take max_results).countP accepts
        ≤ (nodes.take max_results).length := List.countP_le_length accepts
      _ ≤ max_results := List.length_take_le max_results nodes
  · unfold extractResults
    rw [foldl_processNode_eq_build]
    simpa using buildRecords_positions query (nodes.take max_results) 0

/-- C5: every record in the extractor's output has an absolute http(s)
url, and its domain — the url's parsed authority — does not belong to the
exclusion set. -/
theorem extractResults_urls_http_and_domains_not_excluded
    (query : String) (nodes : List RawNode) (max_results : Nat)
    (r : SearchResultRecord) (hr : r ∈ extractResults query nodes max_results) :
    pyStartsWith r.url "http" = true ∧ r.domain ∉ excludedDomains := by
  unfold extractResults at hr
  rw [foldl_processNode_eq_build] at hr
  simp only [List.nil_append, List.length_nil] at hr
  rcases buildRecords_mem query (nodes.take max_results) 0 r hr with ⟨p, n, _, hacc, hrec⟩
  have hacc' := hacc
  unfold accepts at hacc'
  simp only [Bool.and_eq_true, Bool.not_eq_true'] at hacc'
  obtain ⟨⟨⟨ht, hu⟩, hhttp⟩, hexcl⟩ := hacc'
  subst hrec
  constructor
  · simpa [mkRecord] using hhttp
  · simpa [mkRecord] using netloc_not_excluded hexcl

/-- Witness for C5 at a concrete one-node page. -/
theorem extractResults_urls_http_and_domains_not_excluded_witness :
    pyStartsWith (mkRecord "q" 1 (goodNode "https://a.example/1")).url "http" = true ∧
      (mkRecord "q" 1 (goodNode "https://a.example/1")).domain ∉ excludedDomains :=
  extractResults_urls_http_and_domains_not_excluded "q" [goodNode "https://a.example/1"]
    10 _ (by decide)

/-- Counterexample to C6 as stated: the code's cascade accepts a
candidate only when its first match satisfies the predicate — here
candidate "a" has a satisfying second match, yet candidate "b"'s result
is returned — and when no candidate qualifies the loop leaks the last
assigned match ("   ") instead of returning a distinguished absent. -/
theorem cascade_not_any_match_and_no_absent :
    (cascade ctxSecondMatch textPred ["a", "b"] "" = "good" ∧
      resolveSpec ctxSecondMatch textPred ["a", "b"] = some "ok") ∧
    cascade ctxBlankOnly textPred ["a"] "" = "   " := by decide

/-- C6 (amended): the cascade returns the result of the earliest
candidate whose first match satisfies the predicate; permuting the
candidates after that first qualifying one — or changing the initial
value — never changes the outcome; when no candidate's first match
satisfies the predicate, the loop yields the first match of the last
candidate that matched at all (the initial empty value when none did),
not a distinguished absent. -/
theorem cascade_earliest_first_match_qualifies
    (ctx : String → List String) (pred : String → Bool)
    (pre post post' : List String) (sel : String) (acc acc' : String)
    (hpre : ∀ s ∈ pre, headQualifies ctx pred s = false)
    (hq : headQualifies ctx pred sel = true) :
    cascade ctx pred (pre ++ sel :: post) acc = (ctx sel).headD "" ∧
    cascade ctx pred (pre ++ sel :: post) acc =
      cascade ctx pred (pre ++ sel :: post') acc' ∧
    ∀ (cands : List String) (a0 : String),
      (∀ s ∈ cands, headQualifies ctx pred s = false) →
      cascade ctx pred cands a0 = lastAssigned ctx cands a0 := by
  refine ⟨cascade_of_headQualifies ctx pred sel hq pre hpre post acc, ?_, ?_⟩
  · rw [cascade_of_headQualifies ctx pred sel hq pre hpre post acc,
      cascade_of_headQualifies ctx pred sel hq pre hpre post' acc']
  · exact cascade_lastAssigned ctx pred

/-- Witness for C6 (amended) at a concrete context whose first candidate
does not qualify. -/
theorem cascade_earliest_first_match_qualifies_witness :
    cascade ctxSecondMatch textPred (["a"] ++ "b" :: ["c"]) "" =
      (ctxSecondMatch "b").headD "" :=
  (cascade_earliest_first_match_qualifies ctxSecondMatch textPred ["a"] ["c"] []
    "b" "" "z" (by decide) (by decide)).1

/-- Counterexample to C7 as stated: a node whose only title match is
whitespace passes validation (the raw title is truthy) and is appended
with an empty trimmed title, instead of being skipped. -/
theorem whitespace_title_appended_empty :
    (extractResults "q" [blankTitleNode] 10).map SearchResultRecord.title = [""] := by
  decide

/-- C7 (amended): every appended record's title equals the trimmed final
value of the title cascade; a candidate whose final cascade value is the
empty string (falsy) is skipped; but when the final value is
whitespace-only and non-empty the candidate passes validation and is
appended with an empty trimmed title. -/
theorem processNode_title_policy (query : String) (acc : List SearchResultRecord)
    (n : RawNode) :
    (titleVal n = "" → processNode query acc n = acc) ∧
    (∀ r, r ∈ processNode query acc n → r ∈ acc ∨ r.title = pyStrip (titleVal n)) := by
  constructor
  · intro ht
    have hfa : accepts n = false := by
      unfold accepts
      rw [ht]
      simp
    simp [processNode, hfa]
  · intro r hr
    unfold processNode at hr
    by_cases ha : accepts n
    · rw [if_pos ha] at hr
      rcases List.mem_append.mp hr with hmem | hmem
      · exact Or.inl hmem
      · right
        simp only [List.mem_singleton] at hmem
        subst hmem
        rfl
    · rw [if_neg ha] at hr
      exact Or.inl hr

/-- Witness for C7 (amended): a node whose title cascade finds nothing is
skipped. -/
theorem processNode_title_policy_witness :
    processNode "q" [] noTitleNode = [] :=
  (processNode_title_policy "q" [] noTitleNode).1 (by decide)

/-- C8: navigation yielding an HTTP status of 404 (or any status at least
400) makes `extract_page_content` return early with `error` set to
"HTTP <status>", `status_code` recorded, and every other field still at
its default: empty text content, zero word count and reading time, no
headings, empty meta description. -/
theorem extract_page_content_http_error_early_return
    (b : PageBehavior) (url title : String) (s : Nat)
    (h : b.newPage = .ok ()) (hn : b.navigate = .ok (some s)) (hs : 400 ≤ s) :
    ∃ r, extract_page_content b url title = .ok r ∧
      r.error = some ("HTTP " ++ toString s) ∧ r.status_code = some s ∧
      r.text_content = "" ∧ r.word_count = 0 ∧ r.reading_time = 0 ∧
      r.headings = [] ∧ r.meta_description = "" := by
  refine ⟨{ initRecord url title with
      status_code := some s
      error := some ("HTTP " ++ toString s) }, ?_, rfl, rfl, rfl, rfl, rfl, rfl, rfl⟩
  simp only [extract_page_content, initRecord, h, hn, if_pos hs]

/-- Witness for C8 at a concrete 404 response. -/
theorem extract_page_content_http_error_early_return_witness :
    ∃ r, extract_page_content behavior404 "https://x.example/" "T" = .ok r ∧
      r.error = some ("HTTP " ++ toString 404) ∧ r.status_code = some 404 ∧
      r.text_content = "" ∧ r.word_count = 0 ∧ r.reading_time = 0 ∧
      r.headings = [] ∧ r.meta_description = "" :=
  extract_page_content_http_error_early_return behavior404 "https://x.example/" "T"
    404 rfl rfl (by decide)

/-- C9: in every scheduler state reachable from `n` free semaphore slots
and `k` queued content-extraction tasks, at most `n` tasks hold the
admission gate; and every step — including a task finishing in failure —
changes the phase of exactly the task taking it, so no failure cancels a
sibling. -/
theorem semaphore_admission_bound (n k : Nat) (s : SchedState)
    (h : Relation.ReflTransGen SchedStep (initState n k) s) :
    runningCount s ≤ n ∧
      ∀ s₁ s₂, SchedStep s₁ s₂ →
        ∃ i : Nat, ∀ j : Nat, j ≠ i → s₂.tasks[j]? = s₁.tasks[j]? := by
  constructor
  · have hi := reach_invariant h
    omega
  · intro s₁ s₂ hstep
    cases hstep with
    | acquire i hw ha =>
      exact ⟨i, fun j hj => List.getElem?_set_ne hj.symm⟩
    | finish i failed hr =>
      exact ⟨i, fun j hj => List.getElem?_set_ne hj.symm⟩

/-- Witness for C9: with ceiling 2 and 5 queued tasks, the state reached
after two admissions has at most 2 tasks holding the gate. -/
theorem semaphore_admission_bound_witness :
    runningCount ⟨0, [TaskPhase.running, TaskPhase.running, TaskPhase.waiting,
      TaskPhase.waiting, TaskPhase.waiting]⟩ ≤ 2 :=
  (semaphore_admission_bound 2 5 _
    (Relation.ReflTransGen.tail
      (Relation.ReflTransGen.tail Relation.ReflTransGen.refl
        (SchedStep.acquire (initState 2 5) 0 (by decide) (by decide)))
      (SchedStep.acquire ⟨1, [TaskPhase.running, TaskPhase.waiting, TaskPhase.waiting,
        TaskPhase.waiting, TaskPhase.waiting]⟩ 1 (by decide) (by decide)))).1

/-- C10: the domain-exclusion filter tests substring containment over the
entire URL string, not the parsed domain: every candidate whose resolved
url contains an excluded pattern anywhere is omitted from the output. -/
theorem exclusion_filter_is_substring_on_url
    (query : String) (acc : List SearchResultRecord) (n : RawNode)
    (h : anyExcluded (urlVal n) = true) :
    processNode query acc n = acc := by
  have hfa : accepts n = false := by
    unfold accepts
    rw [h]
    simp
  simp [processNode, hfa]

/-- Witness for C10: a url whose authority is the unexcluded
`example.com` but whose path contains `google.com` is skipped. -/
theorem exclusion_filter_is_substring_on_url_witness :
    netloc (urlVal pathTrapNode) ∉ excludedDomains ∧
      processNode "q" [] pathTrapNode = [] :=
  ⟨by decide, exclusion_filter_is_substring_on_url "q" [] pathTrapNode (by decide)⟩
